import Mathlib

/-!
Verification of the settings-resolution core (util/settings.cpp and the
argument-handling code around it) against its natural-language specification.

The C++ code is embedded shallowly: `std::vector` becomes `List`,
`std::map` becomes an association list with unique keys looked up through
`FindKey`, the univalue `UniValue` type becomes the `SettingsValue`
inductive, and every function is translated statement by statement from the
source file.
-/

set_option maxRecDepth 10000

/-- The structured value type (univalue): null, bool, number, string,
array, object.  Numbers are kept as integers; nothing in the settings code
inspects numeric values. -/
inductive SettingsValue where
  | vnull
  | vbool (b : Bool)
  | vnum (n : Int)
  | vstr (s : String)
  | varr (xs : List SettingsValue)
  | vobj (kvs : List (String × SettingsValue))

instance : Inhabited SettingsValue := ⟨SettingsValue.vnull⟩

/-- `UniValue::isFalse()`: true exactly for the boolean `false` value. -/
def SettingsValue.isFalse : SettingsValue → Bool
  | .vbool false => true
  | _ => false

/-- `UniValue::isArray()`. -/
def SettingsValue.isArray : SettingsValue → Bool
  | .varr _ => true
  | _ => false

/-- `UniValue::getValues()` of an array (empty for non-arrays; the settings
code only calls it after `isArray`). -/
def SettingsValue.getValues : SettingsValue → List SettingsValue
  | .varr xs => xs
  | _ => []

namespace util

namespace SettingsSpan

/-- The loop of `SettingsSpan::negated()`: `for (size_t i = size; i > 0; --i)
if (data[i-1].isFalse()) return i; return 0;` written as recursion on the
loop counter. -/
def negatedLoop (vs : List SettingsValue) : Nat → Nat
  | 0 => 0
  | i + 1 => if (vs.getD i SettingsValue.vnull).isFalse then i + 1 else negatedLoop vs i

/-- `SettingsSpan::negated()`: scanning from the end, the first index `i`
(1-based) with `data[i-1]` a false value; 0 when no false value exists.
The source comment: "Return number of negated values (position of last
false value)". -/
def negated (vs : List SettingsValue) : Nat := negatedLoop vs vs.length

/-- `SettingsSpan::last_negated()`: `size > 0 && data[size-1].isFalse()`. -/
def last_negated (vs : List SettingsValue) : Bool :=
  match vs.getLast? with
  | some v => v.isFalse
  | none => false

/-- `SettingsSpan::empty()`: `size == 0 || last_negated()`. -/
def empty (vs : List SettingsValue) : Bool := vs.isEmpty || last_negated vs

/-- The values from `begin()` to `end()`, i.e. `data + negated()` up to
`data + size`: what iterating over the span visits. -/
def live (vs : List SettingsValue) : List SettingsValue := vs.drop (negated vs)

end SettingsSpan

end util

/-- Spec-side description: the elements after the last `Bool(false)` of the
list (the whole list when no false value occurs). -/
def afterLastFalse (vs : List SettingsValue) : List SettingsValue :=
  (vs.reverse.takeWhile (fun v => !v.isFalse)).reverse

/-- Spec-side description from the claim: the number of trailing values
equal to `Bool(false)`, scanning from the end and stopping at the first
non-false value. -/
def trailingFalseCount (vs : List SettingsValue) : Nat :=
  (vs.reverse.takeWhile (fun v => v.isFalse)).length

namespace util

/-- `FindKey`: look a key up in a map represented as an association list
with unique keys (a `std::map` viewed through its lookup primitive). -/
def FindKey {α : Type} (m : List (String × α)) (key : String) : Option α :=
  (m.find? (fun p => p.1 == key)).map (fun p => p.2)

/-- The five settings sources, in precedence order. -/
inductive Source where
  | FORCED
  | COMMAND_LINE
  | RW_SETTINGS
  | CONFIG_FILE_NETWORK_SECTION
  | CONFIG_FILE_DEFAULT_SECTION
deriving DecidableEq

/-- `source == Source::CONFIG_FILE_NETWORK_SECTION || source ==
Source::CONFIG_FILE_DEFAULT_SECTION`, the recurring test of the merge
callbacks. -/
def Source.isConfigFile : Source → Bool
  | .CONFIG_FILE_NETWORK_SECTION => true
  | .CONFIG_FILE_DEFAULT_SECTION => true
  | _ => false

/-- `source == Source::CONFIG_FILE_DEFAULT_SECTION`. -/
def Source.isDefaultSection : Source → Bool
  | .CONFIG_FILE_DEFAULT_SECTION => true
  | _ => false

/-- `source == Source::COMMAND_LINE || source == Source::FORCED`. -/
def Source.isNonpersistent : Source → Bool
  | .COMMAND_LINE => true
  | .FORCED => true
  | _ => false

/-- `source == Source::FORCED`. -/
def Source.isForced : Source → Bool
  | .FORCED => true
  | _ => false

/-- The five-source settings store (`util::Settings`). -/
structure Settings where
  forced_settings : List (String × SettingsValue)
  command_line_options : List (String × List SettingsValue)
  rw_settings : List (String × SettingsValue)
  ro_config : List (String × List (String × List SettingsValue))

/-- `MergeSettings`: the spans (with their sources) that the callback `fn`
is invoked on, in order: forced, command line, read-write settings, the
network-specific section of the config file (only when the section name is
non-empty), then the default section of the config file.  The single-value
sources (forced, read-write) wrap into one-element spans. -/
def MergeSpans (settings : Settings) (sect name : String) :
    List (List SettingsValue × Source) :=
  (match FindKey settings.forced_settings name with
   | some v => [([v], Source.FORCED)]
   | none => []) ++
  (match FindKey settings.command_line_options name with
   | some vs => [(vs, Source.COMMAND_LINE)]
   | none => []) ++
  (match FindKey settings.rw_settings name with
   | some v => [([v], Source.RW_SETTINGS)]
   | none => []) ++
  (if sect = "" then []
   else
     match FindKey settings.ro_config sect with
     | some m =>
       match FindKey m name with
       | some vs => [(vs, Source.CONFIG_FILE_NETWORK_SECTION)]
       | none => []
     | none => []) ++
  (match FindKey settings.ro_config "" with
   | some m =>
     match FindKey m name with
     | some vs => [(vs, Source.CONFIG_FILE_DEFAULT_SECTION)]
     | none => []
   | none => [])

/-- The body of the `MergeSettings` callback inside `util::GetSetting`,
acting on the fold state `(result, done)`. -/
def GetSettingStep (ignore_default_section_config ignore_nonpersistent get_chain_name : Bool)
    (st : SettingsValue × Bool) (x : List SettingsValue × Source) : SettingsValue × Bool :=
  let span := x.1
  let source := x.2
  let never_ignore_negated_setting := SettingsSpan.last_negated span
  let reverse_precedence := source.isConfigFile && !get_chain_name
  let skip_negated_command_line := get_chain_name
  if st.2 then st
  else if ignore_default_section_config && source.isDefaultSection &&
      !never_ignore_negated_setting then st
  else if ignore_nonpersistent && source.isNonpersistent then st
  else if skip_negated_command_line && SettingsSpan.last_negated span then st
  else if !SettingsSpan.empty span then
    (if reverse_precedence then (SettingsSpan.live span).headD SettingsValue.vnull
     else span.getLastD SettingsValue.vnull, true)
  else if SettingsSpan.last_negated span then (SettingsValue.vbool false, true)
  else st

/-- `util::GetSetting` (resolve-one). -/
def GetSetting (settings : Settings) (sect name : String)
    (ignore_default_section_config ignore_nonpersistent get_chain_name : Bool) : SettingsValue :=
  ((MergeSpans settings sect name).foldl
    (GetSettingStep ignore_default_section_config ignore_nonpersistent get_chain_name)
    (SettingsValue.vnull, false)).1

/-- The loop `for (const auto& value : span)` of `GetSettingsList`:
append every live value to the result, expanding array values
element-wise. -/
def flattenAppend (result live : List SettingsValue) : List SettingsValue :=
  live.foldl (fun acc v => if v.isArray then acc ++ v.getValues else acc ++ [v]) result

/-- The body of the `MergeSettings` callback inside `util::GetSettingsList`,
acting on the fold state `(result, done, prev_negated_empty)`. -/
def GetSettingsListStep (ignore_default_section_config : Bool)
    (st : List SettingsValue × Bool × Bool) (x : List SettingsValue × Source) :
    List SettingsValue × Bool × Bool :=
  let span := x.1
  let source := x.2
  let add_zombie_config_values := source.isConfigFile && !st.2.2
  if ignore_default_section_config && source.isDefaultSection then st
  else
    let result := if !st.2.1 || add_zombie_config_values
      then flattenAppend st.1 (SettingsSpan.live span) else st.1
    let done := st.2.1 || decide (0 < SettingsSpan.negated span) || source.isForced
    let prev_negated_empty := st.2.2 || (SettingsSpan.last_negated span && result.isEmpty)
    (result, done, prev_negated_empty)

/-- `util::GetSettingsList` (resolve-list). -/
def GetSettingsList (settings : Settings) (sect name : String)
    (ignore_default_section_config : Bool) : List SettingsValue :=
  ((MergeSpans settings sect name).foldl
    (GetSettingsListStep ignore_default_section_config) ([], false, false)).1

end util

/-- Example store: command line `-nofoo`, config default section `foo=bar`. -/
def zombieSettingsA : util.Settings :=
  { forced_settings := []
    command_line_options := [("foo", [SettingsValue.vbool false])]
    rw_settings := []
    ro_config := [("", [("foo", [SettingsValue.vstr "bar"])])] }

/-- Example store: command line `-nofoo -foo=late`, config default section
`foo=bar`. -/
def zombieSettingsB : util.Settings :=
  { forced_settings := []
    command_line_options := [("foo", [SettingsValue.vbool false, SettingsValue.vstr "late"])]
    rw_settings := []
    ro_config := [("", [("foo", [SettingsValue.vstr "bar"])])] }

/-- Example store: command line `-foo=early -nofoo`, no config entry. -/
def zombieSettingsC : util.Settings :=
  { forced_settings := []
    command_line_options := [("foo", [SettingsValue.vstr "early", SettingsValue.vbool false])]
    rw_settings := []
    ro_config := [] }

/-- Example store: config network section holding `foo=a` then `foo=b`. -/
def configListSettings : util.Settings :=
  { forced_settings := []
    command_line_options := []
    rw_settings := []
    ro_config := [("net", [("foo", [SettingsValue.vstr "a", SettingsValue.vstr "b"])])] }

/-- Example store: command line `-foo=a -foo=b`. -/
def commandLineListSettings : util.Settings :=
  { forced_settings := []
    command_line_options := [("foo", [SettingsValue.vstr "a", SettingsValue.vstr "b"])]
    rw_settings := []
    ro_config := [] }

/-- Example store: read-write settings holding `regtest: false`. -/
def negatedRwSettings : util.Settings :=
  { forced_settings := []
    command_line_options := []
    rw_settings := [("regtest", SettingsValue.vbool false)]
    ro_config := [] }

/-- Example store: command line `-noregtest`. -/
def negatedCommandLineSettings : util.Settings :=
  { forced_settings := []
    command_line_options := [("regtest", [SettingsValue.vbool false])]
    rw_settings := []
    ro_config := [] }

/-- Example store: config default section negating `foo` (`nofoo=1`). -/
def negatedDefaultSettings : util.Settings :=
  { forced_settings := []
    command_line_options := []
    rw_settings := []
    ro_config := [("", [("foo", [SettingsValue.vbool false])])] }

/-- Example store: config default section holding `foo=x`. -/
def plainDefaultSettings : util.Settings :=
  { forced_settings := []
    command_line_options := []
    rw_settings := []
    ro_config := [("", [("foo", [SettingsValue.vstr "x"])])] }

/-- `KeyInfo`: canonical name, section (`sect`, since `section` is a Lean
keyword) and negation marker of a parsed key. -/
structure KeyInfo where
  name : String
  sect : String
  negated : Bool

/-- Per-key registration flags consulted by `InterpretValue` and
`ParseParameters`.  Modelled from the spec: the numeric flag constants
(`ArgsManager::DISALLOW_NEGATION`, `DISALLOW_ELISION`, `COMMAND`) live in
a header that is not among the sources; only their bit-tests are
observable here, so each tested bit becomes one field. -/
structure ArgFlags where
  disallow_negation : Bool
  disallow_elision : Bool
  is_command : Bool

/-- `InterpretKey`: split an optional `section.` part at the first dot,
then strip a leading `no` marking negation; the remainder is the name. -/
def InterpretKey (key : String) : KeyInfo :=
  let cs := key.toList
  let p :=
    match cs.findIdx? (fun c => c == '.') with
    | some i => (String.mk (cs.take i), cs.drop (i + 1))
    | none => ("", cs)
  if p.2.take 2 = ['n', 'o'] then
    { name := String.mk (p.2.drop 2), sect := p.1, negated := true }
  else
    { name := String.mk p.2, sect := p.1, negated := false }

/-- The whitespace set `" \f\n\r\t\v"` trimmed by `TrimString`'s default
pattern. -/
def atoiSpace : List Char := [' ', '\x0c', '\n', '\r', '\t', '\x0b']

/-- Trim the characters of `pat` from both ends. -/
def trimChars (pat s : List Char) : List Char :=
  ((s.dropWhile (fun c => pat.contains c)).reverse.dropWhile (fun c => pat.contains c)).reverse

/-- The maximal leading run of decimal digits as a number; `none` when the
first character is not a digit. -/
def leadingDigits (s : List Char) : Option Nat :=
  match s with
  | c :: _ =>
    if c.isDigit then
      some ((s.takeWhile Char.isDigit).foldl (fun a d => a * 10 + (d.toNat - 48)) 0)
    else none
  | [] => none

/-- Modelled from the spec: `LocaleIndependentAtoi<int>` — its definition
lives in a strencodings header that is not among the sources; behavior per
spec §4.6 and the `test_LocaleIndependentAtoi` unit test in the sources:
trim whitespace; a `+` followed by a second sign gives 0; parse an
optional sign and the leading digit run, ignoring trailing junk; saturate
to the `int` range on overflow; 0 for non-numeric content. -/
def LocaleIndependentAtoiInt (s : String) : Int :=
  let t0 := trimChars atoiSpace s.toList
  let t :=
    match t0 with
    | '+' :: c :: rest => if c = '+' ∨ c = '-' then [] else c :: rest
    | '+' :: [] => []
    | _ => t0
  let p :=
    match t with
    | '-' :: rest => (true, rest)
    | _ => (false, t)
  match leadingDigits p.2 with
  | none => 0
  | some n =>
    let v : Int := if p.1 then -(n : Int) else (n : Int)
    if v < -2147483648 then -2147483648
    else if 2147483647 < v then 2147483647
    else v

/-- `InterpretBool`: the empty string is true; any other string is true
iff its locale-independent integer value is nonzero. -/
def InterpretBool (strValue : String) : Bool :=
  if strValue.isEmpty then true
  else decide (LocaleIndependentAtoiInt strValue ≠ 0)

/-- `InterpretValue`: interpret a settings value based on negation and the
registered flags; `error` carries the descriptive message written to the
`error` out-parameter, `ok` the parsed value. -/
def InterpretValue (key : KeyInfo) (value : Option String) (flags : ArgFlags) :
    Except String SettingsValue :=
  if key.negated then
    if flags.disallow_negation then
      .error ("Negating of -" ++ key.name ++ " is meaningless and therefore forbidden")
    else if value.any (fun v => !InterpretBool v) then
      .ok (SettingsValue.vbool true)
    else .ok (SettingsValue.vbool false)
  else if value.isNone && flags.disallow_elision then
    .error ("Can not set -" ++ key.name ++ " with no value. Please specify value with -" ++
      key.name ++ "=value.")
  else .ok (SettingsValue.vstr (value.getD ""))

/-- `m_settings.command_line_options[name].push_back(value)`: append to
the key's value list, inserting the key when absent. -/
def MapAppend (m : List (String × List SettingsValue)) (key : String) (v : SettingsValue) :
    List (String × List SettingsValue) :=
  match m with
  | [] => [(key, [v])]
  | (k, vs) :: rest =>
    if k == key then (k, vs ++ [v]) :: rest else (k, vs) :: MapAppend rest key v

/-- Parsing state of `ParseParameters`: the accumulated
`command_line_options` map and the `m_command` vector. -/
structure ParseState where
  command_line_options : List (String × List SettingsValue)
  command : List String

/-- Split an argv token at its first `=` (`key.find('=')`): the part
before it and, when present, the part after it. -/
def splitAtEq (key : String) : String × Option String :=
  let cs := key.toList
  match cs.findIdx? (fun c => c == '=') with
  | some i => (String.mk (cs.take i), some (String.mk (cs.drop (i + 1))))
  | none => (key, none)

/-- Modelled from the spec: `UniValue::write` of a scalar value (univalue
is an external collaborator; only the scalar cases can appear in the
`-includeconf` error message). -/
def writeValue : SettingsValue → String
  | .vnull => "null"
  | .vbool true => "true"
  | .vbool false => "false"
  | .vnum n => toString n
  | .vstr s => "\x22" ++ s ++ "\x22"
  | .varr _ => "[...]"
  | .vobj _ => "\x7b...\x7d"

/-- The `for (int i = 1; i < argc; i++)` loop of
`ArgsManager::ParseParameters` (the `MAC_OSX` and `WIN32` conditional
blocks are not compiled in).  `getArgFlags` stands for
`GetArgFlags`' lookup in the registration table. -/
def ParseLoop (getArgFlags : String → Option ArgFlags) (accept_any_command : Bool) :
    List String → ParseState → Except String ParseState
  | [], st => .ok st
  | arg :: rest, st =>
    if arg == "-" then .ok st
    else
      let p := splitAtEq arg
      let kcs := p.1.toList
      if !(kcs.head? == some '-') then
        if !accept_any_command && st.command.isEmpty then
          match getArgFlags p.1 with
          | some flags =>
            if flags.is_command then
              .ok { st with command := st.command ++ [p.1] ++ rest }
            else .error ("Invalid command \x27" ++ arg ++ "\x27")
          | none => .error ("Invalid command \x27" ++ arg ++ "\x27")
        else .ok { st with command := st.command ++ [p.1] ++ rest }
      else
        let kcs2 := match kcs with
          | '-' :: '-' :: t => '-' :: t
          | _ => kcs
        let keyinfo := InterpretKey (String.mk (kcs2.drop 1))
        match getArgFlags ("-" ++ keyinfo.name) with
        | none => .error ("Invalid parameter " ++ arg)
        | some flags =>
          if keyinfo.sect ≠ "" then .error ("Invalid parameter " ++ arg)
          else
            match InterpretValue keyinfo p.2 flags with
            | .error e => .error e
            | .ok v =>
              ParseLoop getArgFlags accept_any_command rest
                { st with command_line_options :=
                    MapAppend st.command_line_options keyinfo.name v }

/-- `ArgsManager::ParseParameters`: run the argv loop, then reject any
surviving (not wholly negated) `-includeconf` values; the error message
names the first live value. -/
def ParseParameters (getArgFlags : String → Option ArgFlags) (accept_any_command : Bool)
    (argv : List String) : Except String ParseState :=
  match ParseLoop getArgFlags accept_any_command argv ⟨[], []⟩ with
  | .error e => .error e
  | .ok st =>
    match util.FindKey st.command_line_options "includeconf" with
    | some includes =>
      if !util.SettingsSpan.empty includes then
        .error ("-includeconf cannot be used from commandline; -includeconf=" ++
          writeValue ((util.SettingsSpan.live includes).headD SettingsValue.vnull))
      else .ok st
    | none => .ok st

/-- Example registration table: `-includeconf` and `-foo` registered with
no restricting flags. -/
def exampleArgTable (s : String) : Option ArgFlags :=
  if s = "-includeconf" ∨ s = "-foo" then some ⟨false, false, false⟩ else none

/-- The boolean outcome of a fallible operation: `true` on `ok`, `false`
on `error` (the C++ functions return `bool` and report the message through
an out-parameter). -/
def exceptIsOk {ε α : Type} : Except ε α → Bool
  | .ok _ => true
  | .error _ => false

/-- The whitespace pattern `" \t\r\n"` of `GetConfigOptions`. -/
def configSpace : List Char := [' ', '\t', '\r', '\n']

/-- `SectionInfo`: section name, origin file, line number. -/
structure SectionInfo where
  m_name : String
  m_file : String
  m_line : Nat

/-- Strip a `#`-delimited comment (`str.find('#')`): the text before the
first `#`, and whether a `#` was found. -/
def stripComment (s : List Char) : List Char × Bool :=
  match s.findIdx? (fun c => c == '#') with
  | some i => (s.take i, true)
  | none => (s, false)

/-- Substring containment (`std::string::find(needle) != npos`). -/
def containsSub (needle : List Char) : List Char → Bool
  | [] => needle.isEmpty
  | c :: cs => needle.isPrefixOf (c :: cs) || containsSub needle cs

/-- Last index of a character (`std::string::rfind`). -/
def rfindIdx (c : Char) (s : List Char) : Option Nat :=
  match s.reverse.findIdx? (fun d => d == c) with
  | some j => some (s.length - 1 - j)
  | none => none

/-- One iteration of the `GetConfigOptions` line loop: given the current
section `pfx` (the `prefix` variable) and the line number, classify the
raw line; on success return the new section text plus the emitted
options and sections, on failure the fatal parse error. -/
def ProcessLine (filepath : String) (pfx : List Char) (linenr : Nat) (raw : List Char) :
    Except String (List Char × List (String × String) × List SectionInfo) :=
  let sc := stripComment raw
  let str := trimChars configSpace sc.1
  if str.isEmpty then .ok (pfx, [], [])
  else if str.head? == some '[' && str.getLast? == some ']' then
    let sct := (str.drop 1).dropLast
    .ok (sct ++ ['.'], [], [⟨String.mk sct, filepath, linenr⟩])
  else if str.head? == some '-' then
    .error ("parse error on line " ++ toString linenr ++ ": " ++ String.mk str ++
      ", options in configuration file must be specified without leading -")
  else
    match str.findIdx? (fun c => c == '=') with
    | some pos =>
      let name := pfx ++ trimChars configSpace (str.take pos)
      let value := trimChars configSpace (str.drop (pos + 1))
      if sc.2 && containsSub "rpcpassword".toList name then
        .error ("parse error on line " ++ toString linenr ++
          ", using # in rpcpassword can be ambiguous and should be avoided")
      else
        let secs :=
          match rfindIdx '.' name with
          | some p => if pfx.length ≤ p then [⟨String.mk (name.take p), filepath, linenr⟩] else []
          | none => []
        .ok (pfx, [(String.mk name, String.mk value)], secs)
    | none =>
      let e := "parse error on line " ++ toString linenr ++ ": " ++ String.mk str
      let e := if str.take 2 = ['n', 'o'] then
          e ++ ", if you intended to specify a negated option, use " ++
            String.mk str ++ "=1 instead"
        else e
      .error e

/-- The `while (std::getline(stream, str))` loop of `GetConfigOptions`,
with the stream pre-split into lines. -/
def GetConfigOptionsLoop (filepath : String) :
    List (List Char) → List Char → Nat → List (String × String) → List SectionInfo →
    Except String (List (String × String) × List SectionInfo)
  | [], _, _, opts, secs => .ok (opts, secs)
  | l :: rest, pfx, n, opts, secs =>
    match ProcessLine filepath pfx n l with
    | .error e => .error e
    | .ok r => GetConfigOptionsLoop filepath rest r.1 (n + 1) (opts ++ r.2.1) (secs ++ r.2.2)

/-- `GetConfigOptions`. -/
def GetConfigOptions (filepath : String) (lines : List (List Char)) :
    Except String (List (String × String) × List SectionInfo) :=
  GetConfigOptionsLoop filepath lines [] 1 [] []

/-- The fatal line shapes enumerated by the claim: after stripping a
`#`-comment and trimming whitespace, a non-blank line fails exactly when
it starts with `-`, or it is not a `[section]` header and either contains
`=` with a comment stripped and `rpcpassword` inside the full key name, or
contains no `=` at all. -/
def FatalLineShape (pfx : List Char) (raw : List Char) : Bool :=
  let sc := stripComment raw
  let str := trimChars configSpace sc.1
  !str.isEmpty &&
    (str.head? == some '-' ||
      (!(str.head? == some '[' && str.getLast? == some ']') &&
        !(str.head? == some '-') &&
        match str.findIdx? (fun c => c == '=') with
        | some pos => sc.2 && containsSub "rpcpassword".toList (pfx ++ trimChars configSpace (str.take pos))
        | none => true))

namespace util

/-- Modelled from the spec: `util::WriteSettings` — the on-disk JSON
encoding (univalue `write`/`read`) is an external collaborator declared
out of scope, so the file channel carries the structured value itself.
Writing builds a single object value holding every key/value pair of the
map in order. -/
def WriteSettings (values : List (String × SettingsValue)) : SettingsValue :=
  SettingsValue.vobj values

/-- The key-insertion loop of `util::ReadSettings`: `values.emplace` each
pair, reporting a duplicate-key error when the key is already present. -/
def ReadSettingsLoop :
    List (String × SettingsValue) → List (String × SettingsValue) → List String →
    List (String × SettingsValue) × List String
  | [], acc, errs => (acc, errs)
  | (k, v) :: rest, acc, errs =>
    if (FindKey acc k).isSome then
      ReadSettingsLoop rest acc (errs ++ ["Found duplicate key " ++ k ++ " in settings file"])
    else
      ReadSettingsLoop rest (acc ++ [(k, v)]) errs

/-- Modelled from the spec: `util::ReadSettings` with the parsed file
content given as a structured value (the univalue JSON parser is external).
A non-object top level is an error; otherwise every key/value pair is
inserted, duplicates reported; returns the map, the error list and the
`errors.empty()` result. -/
def ReadSettings (file : SettingsValue) :
    List (String × SettingsValue) × List String × Bool :=
  match file with
  | SettingsValue.vobj kvs =>
    let r := ReadSettingsLoop kvs [] []
    (r.1, r.2, r.2.isEmpty)
  | v => ([], ["Found non-object value " ++ writeValue v ++ " in settings file"], false)

end util

namespace util.SettingsSpan

theorem negatedLoop_le (vs : List SettingsValue) : ∀ i, negatedLoop vs i ≤ i := by
  intro i
  induction i with
  | zero => simp [negatedLoop]
  | succ n ih =>
    simp only [negatedLoop]
    split
    · exact Nat.le_refl _
    · exact Nat.le_succ_of_le ih

theorem negatedLoop_append (vs ws : List SettingsValue) :
    ∀ i, i ≤ vs.length → negatedLoop (vs ++ ws) i = negatedLoop vs i := by
  intro i
  induction i with
  | zero => simp [negatedLoop]
  | succ n ih =>
    intro h
    have hn : n < vs.length := Nat.lt_of_succ_le h
    simp only [negatedLoop, List.getD_append _ _ _ _ hn]
    split
    · rfl
    · exact ih (Nat.le_of_lt hn)

theorem getD_concat_length (vs : List SettingsValue) (v : SettingsValue) :
    (vs ++ [v]).getD vs.length SettingsValue.vnull = v := by
  simp [List.getD_eq_getElem?_getD, List.getElem?_concat_length]

theorem negated_concat_true (vs : List SettingsValue) (v : SettingsValue)
    (h : v.isFalse = true) : negated (vs ++ [v]) = vs.length + 1 := by
  have hlen : (vs ++ [v]).length = vs.length + 1 := by simp
  rw [negated, hlen]
  simp only [negatedLoop, getD_concat_length, h, if_true]

theorem negated_concat_false (vs : List SettingsValue) (v : SettingsValue)
    (h : v.isFalse = false) : negated (vs ++ [v]) = negated vs := by
  have hlen : (vs ++ [v]).length = vs.length + 1 := by simp
  rw [negated, hlen]
  simp only [negatedLoop, getD_concat_length, h]
  exact negatedLoop_append vs [v] vs.length (Nat.le_refl _)

theorem negated_le_length (vs : List SettingsValue) : negated vs ≤ vs.length :=
  negatedLoop_le vs vs.length

end util.SettingsSpan

theorem afterLastFalse_concat_true (vs : List SettingsValue) (v : SettingsValue)
    (h : v.isFalse = true) : afterLastFalse (vs ++ [v]) = [] := by
  simp [afterLastFalse, List.takeWhile, h]

theorem afterLastFalse_concat_false (vs : List SettingsValue) (v : SettingsValue)
    (h : v.isFalse = false) : afterLastFalse (vs ++ [v]) = afterLastFalse vs ++ [v] := by
  simp [afterLastFalse, List.takeWhile, h]

/-- Core characterization: `negated` is the list length minus the number of
elements after the last false value, and dropping `negated` elements yields
exactly the elements after the last false value. -/
theorem negated_eq_and_drop (vs : List SettingsValue) :
    util.SettingsSpan.negated vs = vs.length - (afterLastFalse vs).length ∧
      vs.drop (util.SettingsSpan.negated vs) = afterLastFalse vs := by
  induction vs using List.reverseRecOn with
  | nil => simp [util.SettingsSpan.negated, util.SettingsSpan.negatedLoop, afterLastFalse]
  | append_singleton vs v ih =>
    obtain ⟨ih1, ih2⟩ := ih
    have hle := util.SettingsSpan.negated_le_length vs
    have hafl : (afterLastFalse vs).length = vs.length - util.SettingsSpan.negated vs := by
      rw [← ih2, List.length_drop]
    cases h : v.isFalse with
    | true =>
      rw [util.SettingsSpan.negated_concat_true vs v h, afterLastFalse_concat_true vs v h]
      constructor
      · simp
      · rw [List.drop_eq_nil_iff]
        simp
    | false =>
      rw [util.SettingsSpan.negated_concat_false vs v h, afterLastFalse_concat_false vs v h]
      constructor
      · simp only [List.length_append, List.length_cons, List.length_nil]
        omega
      · rw [List.drop_append_of_le_length hle, ih2]

theorem last_negated_concat (vs : List SettingsValue) (v : SettingsValue) :
    util.SettingsSpan.last_negated (vs ++ [v]) = v.isFalse := by
  simp [util.SettingsSpan.last_negated, List.getLast?_concat]

namespace util.SettingsSpan

theorem negated_lt_length (vs : List SettingsValue)
    (h1 : vs ≠ []) (h2 : last_negated vs = false) : negated vs < vs.length := by
  rcases List.eq_nil_or_concat vs with h | ⟨L, b, rfl⟩
  · exact absurd h h1
  · simp only [List.concat_eq_append] at h2 ⊢
    rw [last_negated_concat] at h2
    rw [negated_concat_false L b h2]
    have := negated_le_length L
    simp only [List.length_append, List.length_cons, List.length_nil]
    omega

theorem live_concat_false (L : List SettingsValue) (b : SettingsValue)
    (h : b.isFalse = false) : live (L ++ [b]) = live L ++ [b] := by
  rw [live, live, negated_concat_false L b h,
    List.drop_append_of_le_length (negated_le_length L)]

theorem live_getLastQ (vs : List SettingsValue)
    (h1 : vs ≠ []) (h2 : last_negated vs = false) :
    (live vs).getLast? = vs.getLast? := by
  rcases List.eq_nil_or_concat vs with h | ⟨L, b, rfl⟩
  · exact absurd h h1
  · simp only [List.concat_eq_append] at h2 ⊢
    rw [last_negated_concat] at h2
    rw [live_concat_false L b h2, List.getLast?_concat, List.getLast?_concat]

theorem live_ne_nil (vs : List SettingsValue)
    (h1 : vs ≠ []) (h2 : last_negated vs = false) : live vs ≠ [] := by
  have hlt := negated_lt_length vs h1 h2
  intro h
  have := congrArg List.length h
  simp only [live, List.length_drop, List.length_nil] at this
  omega

theorem empty_eq_false (vs : List SettingsValue) :
    empty vs = false ↔ vs ≠ [] ∧ last_negated vs = false := by
  cases vs with
  | nil => simp [empty, last_negated]
  | cons a l => simp [empty]

end util.SettingsSpan

/-- C10: in `GetSetting`, the element accesses `span.begin()[0]` and
`span.end()[-1]` are in bounds: every span that is non-empty and not
last-negated has `negated()` strictly below its size, so the live range
`begin()..end()` is non-empty and both accessed elements lie inside the
underlying value list. -/
theorem C10_span_accesses_in_bounds (vs : List SettingsValue)
    (h1 : vs ≠ []) (h2 : util.SettingsSpan.last_negated vs = false) :
    util.SettingsSpan.negated vs < vs.length ∧ util.SettingsSpan.live vs ≠ [] :=
  ⟨util.SettingsSpan.negated_lt_length vs h1 h2, util.SettingsSpan.live_ne_nil vs h1 h2⟩

theorem C10_witness :
    util.SettingsSpan.negated [SettingsValue.vstr "a"] < [SettingsValue.vstr "a"].length ∧
    util.SettingsSpan.live [SettingsValue.vstr "a"] ≠ [] :=
  C10_span_accesses_in_bounds [SettingsValue.vstr "a"] (by simp) rfl

/-- C2 counterexample: for the value list `[Bool(false), "a"]` the claim
predicts `negated() = 0` (its last element is not false, so the trailing
count is 0), but `SettingsSpan::negated` returns 1, the position of the
last false value. -/
theorem C2_counterexample :
    util.SettingsSpan.negated [SettingsValue.vbool false, SettingsValue.vstr "a"] ≠ 0 ∧
    util.SettingsSpan.negated [SettingsValue.vbool false, SettingsValue.vstr "a"] ≠
      trailingFalseCount [SettingsValue.vbool false, SettingsValue.vstr "a"] := by
  constructor <;> decide

/-- C2 amended: `SettingsSpan::negated()` returns the 1-based position of
the last `Bool(false)` value anywhere in the list (equivalently, the list
length minus the number of values after the last false; 0 when no false
value occurs), not the trailing-false count: `[Bool(false), "a"]` yields 1.
The live values `begin()..end()` are exactly the elements after the last
negating false. -/
theorem C2_amended_negated_is_last_false_position (vs : List SettingsValue) :
    util.SettingsSpan.negated vs = vs.length - (afterLastFalse vs).length ∧
    util.SettingsSpan.live vs = afterLastFalse vs ∧
    util.SettingsSpan.negated [SettingsValue.vbool false, SettingsValue.vstr "a"] = 1 :=
  ⟨(negated_eq_and_drop vs).1, (negated_eq_and_drop vs).2, by decide⟩

/-- C3: for every non-empty, not wholly negated span reached during
`GetSetting` (the accumulator is not yet done and no policy filter skips
the span), the resolved value is the first live value when the source is a
config-file section and `get_chain_name` is false, and the last live value
otherwise; resolution then stops (`done` becomes true) and a done
accumulator passes every later source through unchanged.  Concretely,
config-section values `["a","b"]` resolve to `"a"` while command-line
values `["a","b"]` resolve to `"b"`. -/
theorem C3_first_live_config_last_live_otherwise :
    (∀ (i n g : Bool) (r : SettingsValue) (x : List SettingsValue × util.Source),
      util.GetSettingStep i n g (r, true) x = (r, true)) ∧
    (∀ (i n g : Bool) (r : SettingsValue) (span : List SettingsValue) (src : util.Source),
      util.SettingsSpan.empty span = false →
      (src = util.Source.CONFIG_FILE_DEFAULT_SECTION → i = false) →
      (src = util.Source.COMMAND_LINE ∨ src = util.Source.FORCED → n = false) →
      util.GetSettingStep i n g (r, false) (span, src) =
        ((if src.isConfigFile && !g then
            (util.SettingsSpan.live span).headD SettingsValue.vnull
          else (util.SettingsSpan.live span).getLastD SettingsValue.vnull), true)) ∧
    util.GetSetting configListSettings "net" "foo" false false false = SettingsValue.vstr "a" ∧
    util.GetSetting commandLineListSettings "net" "foo" false false false = SettingsValue.vstr "b" := by
  refine ⟨?_, ?_, rfl, rfl⟩
  · intro i n g r x
    simp [util.GetSettingStep]
  · intro i n g r span src hemp hdef hnp
    obtain ⟨hne, hln⟩ := (util.SettingsSpan.empty_eq_false span).mp hemp
    have hlive := util.SettingsSpan.live_getLastQ span hne hln
    cases src with
    | FORCED =>
      have hn := hnp (Or.inr rfl); subst hn
      simp [util.GetSettingStep, util.Source.isConfigFile, util.Source.isDefaultSection,
        util.Source.isNonpersistent, hln, hemp, hlive]
    | COMMAND_LINE =>
      have hn := hnp (Or.inl rfl); subst hn
      simp [util.GetSettingStep, util.Source.isConfigFile, util.Source.isDefaultSection,
        util.Source.isNonpersistent, hln, hemp, hlive]
    | RW_SETTINGS =>
      simp [util.GetSettingStep, util.Source.isConfigFile, util.Source.isDefaultSection,
        util.Source.isNonpersistent, hln, hemp, hlive]
    | CONFIG_FILE_NETWORK_SECTION =>
      simp [util.GetSettingStep, util.Source.isConfigFile, util.Source.isDefaultSection,
        util.Source.isNonpersistent, hln, hemp, hlive]
    | CONFIG_FILE_DEFAULT_SECTION =>
      have hi := hdef rfl; subst hi
      simp [util.GetSettingStep, util.Source.isConfigFile, util.Source.isDefaultSection,
        util.Source.isNonpersistent, hln, hemp, hlive]

theorem C3_witness :
    util.GetSettingStep false false false (SettingsValue.vnull, false)
      ([SettingsValue.vstr "a", SettingsValue.vstr "b"],
        util.Source.CONFIG_FILE_NETWORK_SECTION) =
      (SettingsValue.vstr "a", true) :=
  C3_first_live_config_last_live_otherwise.2.1 false false false SettingsValue.vnull
    [SettingsValue.vstr "a", SettingsValue.vstr "b"] util.Source.CONFIG_FILE_NETWORK_SECTION
    rfl (fun _ => rfl) (fun _ => rfl)

/-- C4 counterexample: with `get_chain_name` true, a read-write settings
entry `regtest: false` — a wholly negated span from a source other than the
command line — does NOT resolve the key to `Bool(false)`: `GetSetting`
returns `Null` because the skip applies to every source. -/
theorem C4_counterexample :
    util.GetSetting negatedRwSettings "" "regtest" false false true ≠
      SettingsValue.vbool false := by
  intro h
  exact SettingsValue.noConfusion
    (show SettingsValue.vnull = SettingsValue.vbool false from h)

/-- C4 amended: in `GetSetting` with `get_chain_name` true, a wholly
negated span is skipped for EVERY source, not only the command line: the
check `skip_negated_command_line && span.last_negated()` does not test the
source, so negated read-write or config-file spans are likewise skipped
(leaving the key `Null` when nothing else sets it) instead of resolving to
`Bool(false)`. -/
theorem C4_chain_mode_skips_all_negated_spans :
    (∀ (i n : Bool) (r : SettingsValue) (span : List SettingsValue) (src : util.Source),
      util.SettingsSpan.last_negated span = true →
      util.GetSettingStep i n true (r, false) (span, src) = (r, false)) ∧
    util.GetSetting negatedCommandLineSettings "" "regtest" false false true =
      SettingsValue.vnull ∧
    util.GetSetting negatedRwSettings "" "regtest" false false true = SettingsValue.vnull := by
  refine ⟨?_, rfl, rfl⟩
  intro i n r span src h
  cases src <;>
    simp [util.GetSettingStep, util.Source.isDefaultSection, util.Source.isNonpersistent, h]

theorem C4_witness :
    util.GetSettingStep false false true (SettingsValue.vnull, false)
      ([SettingsValue.vbool false], util.Source.RW_SETTINGS) =
      (SettingsValue.vnull, false) :=
  C4_chain_mode_skips_all_negated_spans.1 false false SettingsValue.vnull
    [SettingsValue.vbool false] util.Source.RW_SETTINGS rfl

/-- C5 counterexample: with `ignore_default_section_config` true but also
`get_chain_name` true, a wholly negated default-section span (`foo`
negated, no higher-precedence source) does NOT yield `Bool(false)`: the
chain-name skip discards it and `GetSetting` returns `Null`. -/
theorem C5_counterexample :
    util.GetSetting negatedDefaultSettings "net" "foo" true false true ≠
      SettingsValue.vbool false := by
  intro h
  exact SettingsValue.noConfusion
    (show SettingsValue.vnull = SettingsValue.vbool false from h)

/-- C5 amended: in `GetSetting` with `ignore_default_section_config` true
and `get_chain_name` false, the config default section is skipped when its
span is not wholly negated, but a wholly negated default-section span
reached with the accumulator not yet done resolves the key to
`Bool(false)` — the negation is honored despite the ignore flag.  (With
`get_chain_name` true the negated span is skipped instead, see the
counterexample.) -/
theorem C5_ignored_default_section_negation_honored :
    (∀ (n : Bool) (st : SettingsValue × Bool) (span : List SettingsValue),
      util.SettingsSpan.last_negated span = false →
      util.GetSettingStep true n false st
        (span, util.Source.CONFIG_FILE_DEFAULT_SECTION) = st) ∧
    (∀ (n : Bool) (r : SettingsValue) (span : List SettingsValue),
      util.SettingsSpan.last_negated span = true →
      util.GetSettingStep true n false (r, false)
        (span, util.Source.CONFIG_FILE_DEFAULT_SECTION) =
        (SettingsValue.vbool false, true)) ∧
    util.GetSetting negatedDefaultSettings "net" "foo" true false false =
      SettingsValue.vbool false ∧
    util.GetSetting plainDefaultSettings "net" "foo" true false false =
      SettingsValue.vnull := by
  refine ⟨?_, ?_, rfl, rfl⟩
  · intro n st span h
    simp [util.GetSettingStep, util.Source.isDefaultSection, util.Source.isNonpersistent, h]
  · intro n r span h
    simp [util.GetSettingStep, util.Source.isDefaultSection, util.Source.isNonpersistent,
      util.SettingsSpan.empty, h]

theorem C5_witness :
    util.GetSettingStep true false false (SettingsValue.vnull, false)
      ([SettingsValue.vbool false], util.Source.CONFIG_FILE_DEFAULT_SECTION) =
      (SettingsValue.vbool false, true) :=
  C5_ignored_default_section_negation_honored.2.1 false SettingsValue.vnull
    [SettingsValue.vbool false] rfl

/-- C1 counterexample: command line `-nofoo` (single value `Bool(false)`)
with config default section `foo=bar` — the claim predicts
`GetSettingsList` returns `["bar"]`, but the code returns `[]`: after the
negated command-line span leaves the result empty, `prev_negated_empty`
becomes true and config values are NOT appended (`add_zombie_config_values`
requires `!prev_negated_empty`). -/
theorem C1_counterexample :
    util.GetSettingsList zombieSettingsA "" "foo" false ≠ [SettingsValue.vstr "bar"] := by
  intro h
  exact List.noConfusion
    (show ([] : List SettingsValue) = [SettingsValue.vstr "bar"] from h)

/-- C1 amended: in `GetSettingsList`, a config-file source's values are
appended even after resolution is otherwise done exactly when NO earlier
iteration left a wholly negated span while the accumulated result was
still empty (`add_zombie_config_values = config source &&
!prev_negated_empty`).  In particular, a command line holding the single
negated value `Bool(false)` with config default `foo=bar` yields `[]`; a
command line `[Bool(false), "late"]` with config default `foo=bar` yields
`["late","bar"]` (the revival case); and `["early", Bool(false)]` with no
config entry yields `[]`. -/
theorem C1_zombie_config_values :
    (∀ (ig : Bool) (r : List SettingsValue) (prev : Bool)
        (span : List SettingsValue) (src : util.Source),
      src.isConfigFile = true →
      (src = util.Source.CONFIG_FILE_DEFAULT_SECTION → ig = false) →
      (util.GetSettingsListStep ig (r, true, prev) (span, src)).1 =
        if prev then r else util.flattenAppend r (util.SettingsSpan.live span)) ∧
    util.GetSettingsList zombieSettingsA "" "foo" false = [] ∧
    util.GetSettingsList zombieSettingsB "" "foo" false =
      [SettingsValue.vstr "late", SettingsValue.vstr "bar"] ∧
    util.GetSettingsList zombieSettingsC "" "foo" false = [] := by
  refine ⟨?_, rfl, rfl, rfl⟩
  intro ig r prev span src hconf hdef
  cases src with
  | FORCED => simp [util.Source.isConfigFile] at hconf
  | COMMAND_LINE => simp [util.Source.isConfigFile] at hconf
  | RW_SETTINGS => simp [util.Source.isConfigFile] at hconf
  | CONFIG_FILE_NETWORK_SECTION =>
    cases prev <;>
      simp [util.GetSettingsListStep, util.Source.isConfigFile, util.Source.isDefaultSection]
  | CONFIG_FILE_DEFAULT_SECTION =>
    have hig := hdef rfl; subst hig
    cases prev <;>
      simp [util.GetSettingsListStep, util.Source.isConfigFile, util.Source.isDefaultSection]

theorem C1_witness :
    (util.GetSettingsListStep false ([], true, false)
      ([SettingsValue.vstr "bar"], util.Source.CONFIG_FILE_NETWORK_SECTION)).1 =
      [SettingsValue.vstr "bar"] :=
  C1_zombie_config_values.1 false [] false [SettingsValue.vstr "bar"]
    util.Source.CONFIG_FILE_NETWORK_SECTION rfl (fun _ => rfl)

/-- C6: for a negated key, `InterpretValue` errors when the flags carry
`DISALLOW_NEGATION`; otherwise it returns `Bool(true)` exactly when a raw
value is present whose `InterpretBool` is false (double negative), else
`Bool(false)`.  `InterpretBool` maps the empty string to true and any
other string to the locale-independent integer value being nonzero, so an
unparsable string such as `"abc"` counts as false. -/
theorem C6_negated_value_interpretation (key : KeyInfo) (value : Option String)
    (flags : ArgFlags) (h : key.negated = true) :
    (flags.disallow_negation = true →
      InterpretValue key value flags =
        Except.error ("Negating of -" ++ key.name ++ " is meaningless and therefore forbidden")) ∧
    (flags.disallow_negation = false →
      InterpretValue key value flags =
        Except.ok (SettingsValue.vbool (value.any (fun v => !InterpretBool v)))) ∧
    (∀ s : String, s ≠ "" → InterpretBool s = decide (LocaleIndependentAtoiInt s ≠ 0)) ∧
    InterpretBool "" = true ∧
    InterpretBool "abc" = false := by
  refine ⟨?_, ?_, ?_, rfl, rfl⟩
  · intro hd
    simp [InterpretValue, h, hd]
  · intro hd
    cases hv : value.any (fun v => !InterpretBool v) <;>
      simp [InterpretValue, h, hd, hv]
  · intro s hs
    rw [InterpretBool, if_neg]
    simp [String.isEmpty_iff, hs]

theorem C6_witness :
    InterpretValue ⟨"foo", "", true⟩ none ⟨true, false, false⟩ =
      Except.error "Negating of -foo is meaningless and therefore forbidden" ∧
    InterpretValue ⟨"foo", "", true⟩ (some "0") ⟨false, false, false⟩ =
      Except.ok (SettingsValue.vbool true) ∧
    InterpretValue ⟨"foo", "", true⟩ none ⟨false, false, false⟩ =
      Except.ok (SettingsValue.vbool false) :=
  ⟨(C6_negated_value_interpretation ⟨"foo", "", true⟩ none ⟨true, false, false⟩ rfl).1 rfl,
   (C6_negated_value_interpretation ⟨"foo", "", true⟩ (some "0") ⟨false, false, false⟩ rfl).2.1 rfl,
   (C6_negated_value_interpretation ⟨"foo", "", true⟩ none ⟨false, false, false⟩ rfl).2.1 rfl⟩

/-- C7 counterexample: the command line `-includeconf=a -noincludeconf`
supplies a non-negated `-includeconf` value yet `ParseParameters` accepts
it: the final check only rejects when the accumulated `includeconf` span
is not wholly negated, and the trailing `-noincludeconf` negates it. -/
theorem C7_counterexample :
    ParseParameters exampleArgTable true ["-includeconf=a", "-noincludeconf"] =
      Except.ok ⟨[("includeconf", [SettingsValue.vstr "a", SettingsValue.vbool false])], []⟩ :=
  rfl

/-- C7 amended: after a successful argv loop, `ParseParameters` rejects
(with a descriptive error) exactly those command lines whose accumulated
`includeconf` value list survives negation (the span is non-empty); an
absent entry or a wholly negated one — including a non-negated
`-includeconf` later cancelled by `-noincludeconf` — is accepted.
Concretely `-includeconf=a` alone is rejected and `-noincludeconf` alone
is accepted. -/
theorem C7_includeconf_rejected_iff_value_survives :
    (∀ (gf : String → Option ArgFlags) (acc : Bool) (argv : List String) (st : ParseState),
      ParseLoop gf acc argv ⟨[], []⟩ = Except.ok st →
      (exceptIsOk (ParseParameters gf acc argv) = false ↔
        ∃ vs, util.FindKey st.command_line_options "includeconf" = some vs ∧
          util.SettingsSpan.empty vs = false)) ∧
    exceptIsOk (ParseParameters exampleArgTable true ["-includeconf=a"]) = false ∧
    exceptIsOk (ParseParameters exampleArgTable true ["-noincludeconf"]) = true := by
  refine ⟨?_, rfl, rfl⟩
  intro gf acc argv st h
  simp only [ParseParameters, h]
  cases hf : util.FindKey st.command_line_options "includeconf" with
  | none => simp [exceptIsOk]
  | some vs =>
    cases hemp : util.SettingsSpan.empty vs with
    | true => simp [exceptIsOk, hemp]
    | false => simp [exceptIsOk, hemp]

theorem C7_witness :
    exceptIsOk (ParseParameters exampleArgTable true ["-includeconf=a"]) = false ↔
      ∃ vs, util.FindKey [("includeconf", [SettingsValue.vstr "a"])] "includeconf" = some vs ∧
        util.SettingsSpan.empty vs = false :=
  C7_includeconf_rejected_iff_value_survives.1 exampleArgTable true ["-includeconf=a"]
    ⟨[("includeconf", [SettingsValue.vstr "a"])], []⟩ rfl

/-- C8: a line of `GetConfigOptions` (one iteration of its loop) fails
with a fatal parse error exactly on the claimed non-blank line shapes —
after stripping a `#`-comment and trimming, a line starting with `-`; a
non-header line containing `=` whose full key name (current section
text plus trimmed key) contains `rpcpassword` while a comment was
stripped; and a line that is neither a `[section]` header nor contains
`=` — and every other line is processed without error.  The two closed
conjuncts run `GetConfigOptions` end to end on a failing and a
succeeding file. -/
theorem C8_config_parse_errors :
    (∀ (filepath : String) (pfx : List Char) (n : Nat) (raw : List Char),
      exceptIsOk (ProcessLine filepath pfx n raw) = !FatalLineShape pfx raw) ∧
    exceptIsOk (GetConfigOptions "bitcoin.conf" ["a=1".toList, "-b=2".toList]) = false ∧
    exceptIsOk (GetConfigOptions "bitcoin.conf"
      ["[regtest]".toList, "server=1".toList, "# note".toList]) = true := by
  refine ⟨?_, rfl, rfl⟩
  intro filepath pfx n raw
  simp only [ProcessLine, FatalLineShape]
  cases hempty : (trimChars configSpace (stripComment raw).1).isEmpty with
  | true => simp [hempty, exceptIsOk]
  | false =>
    cases hh1 : (trimChars configSpace (stripComment raw).1).head? == some '[' with
    | true =>
      have hh1e : (trimChars configSpace (stripComment raw).1).head? = some '[' :=
        eq_of_beq hh1
      cases hh2 : (trimChars configSpace (stripComment raw).1).getLast? == some ']' with
      | true =>
        simp [hempty, hh1, hh2, hh1e, exceptIsOk,
          show ((some '[' : Option Char) == some '-') = false from rfl]
      | false =>
        cases hfind : (trimChars configSpace (stripComment raw).1).findIdx?
            (fun c => c == '=') with
        | none =>
          simp [hempty, hh1, hh2, hh1e, hfind, exceptIsOk,
            show ((some '[' : Option Char) == some '-') = false from rfl]
        | some pos =>
          cases hhash : (stripComment raw).2 with
          | false =>
            simp [hempty, hh1, hh2, hh1e, hfind, hhash, exceptIsOk,
              show ((some '[' : Option Char) == some '-') = false from rfl]
          | true =>
            cases hrpc : containsSub ['r', 'p', 'c', 'p', 'a', 's', 's', 'w', 'o', 'r', 'd']
                (pfx ++ trimChars configSpace
                  ((trimChars configSpace (stripComment raw).1).take pos)) with
            | true =>
              simp [hempty, hh1, hh2, hh1e, hfind, hhash, hrpc, exceptIsOk,
                show ((some '[' : Option Char) == some '-') = false from rfl]
            | false =>
              simp [hempty, hh1, hh2, hh1e, hfind, hhash, hrpc, exceptIsOk,
                show ((some '[' : Option Char) == some '-') = false from rfl]
    | false =>
      cases hdash : (trimChars configSpace (stripComment raw).1).head? == some '-' with
      | true => simp [hempty, hh1, hdash, exceptIsOk]
      | false =>
        cases hfind : (trimChars configSpace (stripComment raw).1).findIdx?
            (fun c => c == '=') with
        | none => simp [hempty, hh1, hdash, hfind, exceptIsOk]
        | some pos =>
          cases hhash : (stripComment raw).2 with
          | false => simp [hempty, hh1, hdash, hfind, hhash, exceptIsOk]
          | true =>
            cases hrpc : containsSub ['r', 'p', 'c', 'p', 'a', 's', 's', 'w', 'o', 'r', 'd']
                (pfx ++ trimChars configSpace
                  ((trimChars configSpace (stripComment raw).1).take pos)) with
            | true => simp [hempty, hh1, hdash, hfind, hhash, hrpc, exceptIsOk]
            | false => simp [hempty, hh1, hdash, hfind, hhash, hrpc, exceptIsOk]

theorem FindKey_eq_none {α : Type} (m : List (String × α)) (k : String) :
    util.FindKey m k = none ↔ ∀ p ∈ m, p.1 ≠ k := by
  simp [util.FindKey, List.find?_eq_none]

theorem ReadSettingsLoop_nodup (rest : List (String × SettingsValue)) :
    ∀ (acc : List (String × SettingsValue)) (errs : List String),
    (∀ k ∈ rest.map Prod.fst, util.FindKey acc k = none) →
    (rest.map Prod.fst).Nodup →
    util.ReadSettingsLoop rest acc errs = (acc ++ rest, errs) := by
  induction rest with
  | nil => intro acc errs _ _; simp [util.ReadSettingsLoop]
  | cons p rest ih =>
    intro acc errs hdisj hnodup
    obtain ⟨k, v⟩ := p
    have hk : util.FindKey acc k = none := hdisj k (by simp)
    rw [List.map_cons, List.nodup_cons] at hnodup
    rw [util.ReadSettingsLoop, if_neg (by simp [hk])]
    rw [ih (acc ++ [(k, v)]) errs ?_ hnodup.2]
    · simp
    · intro k2 hk2
      rw [FindKey_eq_none]
      intro q hq
      rcases List.mem_append.mp hq with hq | hq
      · exact (FindKey_eq_none acc k2).mp (hdisj k2 (by simp [hk2])) q hq
      · rcases List.mem_singleton.mp hq with rfl
        intro hqk
        exact hnodup.1 (hqk ▸ hk2)

/-- C9: writing a duplicate-free settings map and reading it back yields
exactly the same key/value pairs with no errors and a `true` result.  The
JSON encoding itself is external (univalue), so the file channel carries
the structured object value; `ReadSettings` checks for an object, inserts
every pair and reports duplicates. -/
theorem C9_settings_round_trip (values : List (String × SettingsValue))
    (h : (values.map Prod.fst).Nodup) :
    util.ReadSettings (util.WriteSettings values) = (values, [], true) := by
  show (let r := util.ReadSettingsLoop values [] []; (r.1, r.2, r.2.isEmpty)) = (values, [], true)
  rw [ReadSettingsLoop_nodup values [] [] (fun k _ => rfl) h]
  simp

theorem C9_witness :
    (([("a", SettingsValue.vstr "x"), ("b", SettingsValue.vbool true)].map Prod.fst).Nodup) ∧
    util.ReadSettings (util.WriteSettings
        [("a", SettingsValue.vstr "x"), ("b", SettingsValue.vbool true)]) =
      ([("a", SettingsValue.vstr "x"), ("b", SettingsValue.vbool true)], [], true) :=
  ⟨by decide, C9_settings_round_trip
    [("a", SettingsValue.vstr "x"), ("b", SettingsValue.vbool true)] (by decide)⟩
